import Mathlib

/-!
Shallow embedding of the SlideForgeAI editing core: the document model
(`Presentation`/`Slide`/`Theme`), the generic undo/redo history engine
(`useHistory` in the editor source), the slide mutation handlers
(update / move / delete / add / AI content refinement), the background
classification shared by the live preview (`SlideBackground`) and the
export transform (`handleExport`), and the export background branch with
its gradient fallback. Every definition is a direct translation of the
corresponding TypeScript in the repository's editor and service files.
-/

namespace SlideForge

/-- Optional per-slide text styling (`titleStyle` / `contentStyle` in types). -/
structure TextStyle where
  color : Option String := none
  fontFamily : Option String := none
  fontWeight : Option String := none
  fontStyle : Option String := none
  fontSize : Option String := none
  deriving DecidableEq, Repr

/-- One slide of a presentation, as declared in the repository's types file.
`backgroundImageSearchQuery` is a plain (always present) string there. -/
structure Slide where
  id : String
  title : String
  content : List String
  backgroundImage : String
  backgroundImageSearchQuery : String
  animation : Option String := none
  titleStyle : Option TextStyle := none
  contentStyle : Option TextStyle := none
  deriving DecidableEq, Repr

instance : Inhabited Slide :=
  ⟨{ id := "", title := "", content := [], backgroundImage := "",
     backgroundImageSearchQuery := "" }⟩

/-- Colour palette of a theme. -/
structure ThemeColors where
  background : String
  text : String
  primary : String
  deriving DecidableEq, Repr

/-- Font pair of a theme. -/
structure ThemeFonts where
  title : String
  body : String
  deriving DecidableEq, Repr

/-- A presentation theme (static lookup data in the repository). -/
structure Theme where
  name : String
  tags : List String
  colors : ThemeColors
  fonts : ThemeFonts
  deriving DecidableEq, Repr

/-- The root aggregate: a presentation and its ordered slides. -/
structure Presentation where
  id : String
  userId : String
  topic : String
  slides : List Slide
  theme : Theme
  subTitle : Option String := none
  companyLogo : Option String := none
  companyWebsite : Option String := none
  deriving DecidableEq, Repr

/-- The "Default" entry of the repository's theme catalogue. -/
def defaultTheme : Theme :=
  { name := "Default",
    tags := ["simple", "clean", "light"],
    colors := { background := "#FFFFFF", text := "#000000", primary := "#3B82F6" },
    fonts := { title := "Helvetica, Arial, sans-serif",
               body := "Helvetica, Arial, sans-serif" } }

/-- The `useHistory` hook's state: undo stack, current value, redo stack. -/
structure HistoryState (T : Type) where
  past : List T
  present : T
  future : List T
  deriving DecidableEq, Repr

/-- Starting history state of `useHistory(initialPresent)`. -/
def initHistory {T : Type} (initialPresent : T) : HistoryState T :=
  ⟨[], initialPresent, []⟩

/-- `undo`: when `past` is non-empty, pop its last entry into `present` and
push the old `present` onto the front of `future`; otherwise do nothing. -/
def undo {T : Type} (s : HistoryState T) : HistoryState T :=
  match s.past.getLast? with
  | none => s
  | some previous => ⟨s.past.dropLast, previous, s.present :: s.future⟩

/-- `redo`: when `future` is non-empty, pop its head into `present` and append
the old `present` to `past`; otherwise do nothing. -/
def redo {T : Type} (s : HistoryState T) : HistoryState T :=
  match s.future with
  | [] => s
  | next :: newFuture => ⟨s.past ++ [s.present], next, newFuture⟩

/-- `set`: no-op when the new value deep-equals `present` (the source compares
`JSON.stringify` of both, modelled as structural equality); otherwise push the
old `present` onto `past`, install the new value and clear `future`. -/
def set {T : Type} [DecidableEq T] (s : HistoryState T) (newPresent : T) :
    HistoryState T :=
  if s.present = newPresent then s
  else ⟨s.past ++ [s.present], newPresent, []⟩

/-- History states reachable from the initial state by `set` calls alone. -/
inductive ReachedBySets {T : Type} [DecidableEq T] (init : T) :
    HistoryState T → Prop
  | start : ReachedBySets init (initHistory init)
  | step (s : HistoryState T) (x : T) :
      ReachedBySets init s → ReachedBySets init (set s x)

/-- A minimal record mirroring the spec's `{title:"A"}` example value. -/
structure TitleRecord where
  title : String
  deriving DecidableEq, Repr

lemma reached_future_nil {T : Type} [DecidableEq T] {init : T}
    {s : HistoryState T} (h : ReachedBySets init s) : s.future = [] := by
  induction h with
  | start => rfl
  | step s x _ ih =>
      unfold set
      split
      · exact ih
      · rfl

lemma redo_undo_of_future_nil {T : Type} (s : HistoryState T)
    (h : s.future = []) : redo (undo s) = s := by
  cases s with
  | mk past present future =>
      cases future with
      | cons a l => simp at h
      | nil =>
          rcases List.eq_nil_or_concat past with hp | ⟨l, b, hp⟩
          · subst hp
            simp [undo, redo]
          · subst hp
            simp [undo, redo, List.getLast?_concat, List.dropLast_concat]

/-- C2: for every history state reached by a sequence of `set` calls, `undo`
followed immediately by `redo` restores the whole state — `present`, `past`
and `future` — exactly as it was before the `undo`. -/
theorem c2_undo_redo_inverse {T : Type} [DecidableEq T] (init : T)
    (s : HistoryState T) (h : ReachedBySets init s) : redo (undo s) = s :=
  redo_undo_of_future_nil s (reached_future_nil h)

/-- Witness for C2 at the concrete state reached by setting "B" then "C". -/
theorem c2_undo_redo_inverse_witness :
    redo (undo (set (set (initHistory (TitleRecord.mk "A"))
        (TitleRecord.mk "B")) (TitleRecord.mk "C"))) =
      set (set (initHistory (TitleRecord.mk "A")) (TitleRecord.mk "B"))
        (TitleRecord.mk "C") :=
  c2_undo_redo_inverse (TitleRecord.mk "A") _
    (ReachedBySets.step _ _ (ReachedBySets.step _ _ ReachedBySets.start))

/-- C3: `set` with a value deep-equal to the current `present` is a no-op —
`past`, `present` and `future` are all left exactly as they were. -/
theorem c3_set_dedup {T : Type} [DecidableEq T] (s : HistoryState T) (x : T)
    (h : s.present = x) : set s x = s := by
  simp [set, h]

/-- Witness for C3: with present `{title:"A"}` and empty past, setting
`{title:"A"}` again leaves the state unchanged and `past.length = 0`. -/
theorem c3_set_dedup_witness :
    set (initHistory (TitleRecord.mk "A")) (TitleRecord.mk "A") =
        initHistory (TitleRecord.mk "A") ∧
      (set (initHistory (TitleRecord.mk "A")) (TitleRecord.mk "A")).past.length
        = 0 := by
  have h := c3_set_dedup (initHistory (TitleRecord.mk "A"))
    (TitleRecord.mk "A") rfl
  exact ⟨h, by rw [h]; rfl⟩

/-- C4: when `future` is non-empty (after an undo) and the new value differs
from `present`, `set` clears `future` entirely, installs the new value as
`present` and appends the old `present` to `past`. -/
theorem c4_set_clears_future {T : Type} [DecidableEq T] (s : HistoryState T)
    (y : T) (_hf : s.future ≠ []) (hy : s.present ≠ y) :
    set s y = ⟨s.past ++ [s.present], y, []⟩ := by
  simp [set, hy]

/-- Witness for C4 at a concrete state with one redo entry pending. -/
theorem c4_set_clears_future_witness :
    set (HistoryState.mk [] (TitleRecord.mk "A") [TitleRecord.mk "B"])
        (TitleRecord.mk "C") =
      HistoryState.mk [TitleRecord.mk "A"] (TitleRecord.mk "C") [] :=
  c4_set_clears_future
    (HistoryState.mk [] (TitleRecord.mk "A") [TitleRecord.mk "B"])
    (TitleRecord.mk "C") (by simp) (by simp)

/-- Apply `f` to the element at position `i`, leaving the list unchanged when
`i` is out of range (the editor only writes `newSlides[sel] = ...` in range). -/
def modifyAt {α : Type} (f : α → α) : Nat → List α → List α
  | _, [] => []
  | 0, x :: xs => f x :: xs
  | n + 1, x :: xs => x :: modifyAt f n xs

/-- Swap the elements at positions `i` and `i + 1` when both exist. -/
def swapAdj {α : Type} : List α → Nat → List α
  | x :: y :: xs, 0 => y :: x :: xs
  | x :: xs, n + 1 => x :: swapAdj xs n
  | l, _ => l

/-- Worker for `filterIdxNe`: `n` is the position of the list's head, as in
`slides.filter((_, i) => i !== index)`. -/
def filterIdxNeAux {α : Type} (index : Nat) : Nat → List α → List α
  | _, [] => []
  | n, x :: xs =>
      if n ≠ index then x :: filterIdxNeAux index (n + 1) xs
      else filterIdxNeAux index (n + 1) xs

/-- Keep every element whose position differs from `index` — the delete
handler's `presentation.slides.filter((_, i) => i !== index)`. -/
def filterIdxNe {α : Type} (index : Nat) (l : List α) : List α :=
  filterIdxNeAux index 0 l

/-- The editor's live state: the `present` presentation plus the selected
slide index held next to it in `EditorPage`. -/
structure EditorState where
  presentation : Presentation
  selectedSlideIndex : Nat
  deriving DecidableEq, Repr

/-- A partial slide update, `Partial<Slide>` in `updateSlide(updates)`:
`none` means the field is absent from the update object. -/
structure SlideUpdate where
  title : Option String := none
  content : Option (List String) := none
  backgroundImage : Option String := none
  backgroundImageSearchQuery : Option String := none
  animation : Option String := none
  titleStyle : Option TextStyle := none
  contentStyle : Option TextStyle := none
  deriving DecidableEq, Repr

/-- Field merge of `{ ...slide, ...updates }`. -/
def mergeSlide (s : Slide) (u : SlideUpdate) : Slide :=
  { id := s.id,
    title := u.title.getD s.title,
    content := u.content.getD s.content,
    backgroundImage := u.backgroundImage.getD s.backgroundImage,
    backgroundImageSearchQuery :=
      u.backgroundImageSearchQuery.getD s.backgroundImageSearchQuery,
    animation := match u.animation with
      | some a => some a
      | none => s.animation,
    titleStyle := match u.titleStyle with
      | some t => some t
      | none => s.titleStyle,
    contentStyle := match u.contentStyle with
      | some c => some c
      | none => s.contentStyle }

/-- `updateSlide`: merge a partial update into the selected slide. -/
def updateSlide (st : EditorState) (u : SlideUpdate) : EditorState :=
  { st with presentation := { st.presentation with
      slides := modifyAt (fun s => mergeSlide s u)
        st.selectedSlideIndex st.presentation.slides } }

/-- Direction argument of `handleMoveSlide`. -/
inductive Direction
  | up
  | down
  deriving DecidableEq, Repr

/-- `handleMoveSlide`: swap the selected slide with its neighbour, a no-op at
the sequence boundaries; the selection follows the moved slide. -/
def handleMoveSlide (st : EditorState) (d : Direction) : EditorState :=
  match d with
  | .up =>
      if 0 < st.selectedSlideIndex then
        { presentation := { st.presentation with
            slides := swapAdj st.presentation.slides
              (st.selectedSlideIndex - 1) },
          selectedSlideIndex := st.selectedSlideIndex - 1 }
      else st
  | .down =>
      if st.selectedSlideIndex < st.presentation.slides.length - 1 then
        { presentation := { st.presentation with
            slides := swapAdj st.presentation.slides st.selectedSlideIndex },
          selectedSlideIndex := st.selectedSlideIndex + 1 }
      else st

/-- Result of `handleDeleteSlide`: the next editor state and the toast text. -/
structure DeleteResult where
  state : EditorState
  toast : Option String
  deriving DecidableEq, Repr

/-- `handleDeleteSlide`: refuse (with a notice) when at most one slide
remains; otherwise drop the slide at `index` and re-target the selection. -/
def handleDeleteSlide (st : EditorState) (index : Nat) : DeleteResult :=
  if st.presentation.slides.length ≤ 1 then
    ⟨st, some "Presentation must have at least one slide."⟩
  else
    let newSlides := filterIdxNe index st.presentation.slides
    let newIndex :=
      if index = st.selectedSlideIndex then max 0 (index - 1)
      else if index < st.selectedSlideIndex then st.selectedSlideIndex - 1
      else st.selectedSlideIndex
    ⟨⟨{ st.presentation with slides := newSlides }, newIndex⟩,
      some "Slide deleted."⟩

/-- The slide built by the Add Slide button; `now` stands for `Date.now()`,
so the id is `slide-<timestamp>` with no uniqueness check. -/
def newSlide (now : Nat) : Slide :=
  { id := "slide-" ++ toString now,
    title := "New Slide",
    content := ["Click to edit content"],
    backgroundImage := "#FFFFFF",
    backgroundImageSearchQuery := "abstract",
    animation := some "none" }

/-- The Add Slide button: append the new slide and select the new last
index (the previous length). -/
def handleAddSlide (st : EditorState) (now : Nat) : EditorState :=
  { presentation := { st.presentation with
      slides := st.presentation.slides ++ [newSlide now] },
    selectedSlideIndex := st.presentation.slides.length }

/-- Boolean test that `p` is an initial segment of `l`. -/
def matchesFront : List Char → List Char → Bool
  | [], _ => true
  | _ :: _, [] => false
  | p :: ps, c :: cs => p == c && matchesFront ps cs

/-- `String.prototype.startsWith`, on the character lists of the strings. -/
def strStartsWith (s pat : String) : Bool :=
  matchesFront pat.data s.data

/-- `String.prototype.endsWith`, on the reversed character lists. -/
def strEndsWith (s pat : String) : Bool :=
  matchesFront pat.data.reverse s.data.reverse

/-- JS `split(sep)`: `acc` collects the current segment in reverse. -/
def splitSepAux (sep : Char) : List Char → List Char → List (List Char)
  | [], acc => [acc.reverse]
  | c :: cs, acc =>
      if c == sep then acc.reverse :: splitSepAux sep cs []
      else splitSepAux sep cs (c :: acc)

/-- A line is blank exactly when `line.trim().length > 0` fails, i.e. every
character is whitespace. -/
def isBlankLine (l : List Char) : Bool :=
  l.all (fun c => c.isWhitespace)

/-- `line.replace(/^- /, '')`: strip one leading hyphen-space when present. -/
def stripDash : List Char → List Char
  | '-' :: ' ' :: rest => rest
  | l => l

/-- The refinement response pipeline of `handleAiContentRefine`: split on
newlines, drop lines blank after trimming, strip each leading `"- "`. -/
def parseRefineResponse (s : String) : List String :=
  ((splitSepAux '\n' s.data []).filter (fun l => !isBlankLine l)).map
    (fun l => String.mk (stripDash l))

/-- JS `Array.prototype.join('\n')`. -/
def joinNl : List String → String
  | [] => ""
  | [s] => s
  | s :: rest => s ++ "\n" ++ joinNl rest

/-- The editor-state effect of a successful content refinement: the parsed
bullets replace the selected slide's content wholesale. -/
def handleAiContentRefineSuccess (st : EditorState) (response : String) :
    EditorState :=
  updateSlide st { content := some (parseRefineResponse response) }

/-- The refinement service's catch branch returns its `currentContent`
argument instead of re-throwing, so the editor cannot observe the failure. -/
def generateSlideContentImprovementFail (currentContent : String) : String :=
  currentContent

/-- What `handleAiContentRefine` does when the backend call fails: the
service hands back the joined current content, the editor re-parses it as if
it were a fresh response and shows the success toast — its own catch branch
(with the "Failed to refine content." notice) is unreachable. -/
def handleAiContentRefineBackendFail (st : EditorState) :
    EditorState × Option String :=
  let selectedSlide := st.presentation.slides.getD st.selectedSlideIndex default
  let newContent :=
    generateSlideContentImprovementFail (joinNl selectedSlide.content)
  (updateSlide st { content := some (parseRefineResponse newContent) },
    some "Content refined!")

/-- Sample slide used by concrete witnesses. -/
def slideA : Slide :=
  { id := "a", title := "A", content := ["pa"], backgroundImage := "#FFFFFF",
    backgroundImageSearchQuery := "qa" }

/-- Second sample slide. -/
def slideB : Slide :=
  { id := "b", title := "B", content := ["pb"], backgroundImage := "#000000",
    backgroundImageSearchQuery := "qb" }

/-- Third sample slide. -/
def slideC : Slide :=
  { id := "c", title := "C", content := ["pc"], backgroundImage := "#112233",
    backgroundImageSearchQuery := "qc" }

/-- A one-slide editor state. -/
def exSt1 : EditorState :=
  ⟨⟨"p1", "u1", "Topic", [slideA], defaultTheme, none, none, none⟩, 0⟩

/-- A three-slide editor state with the middle slide selected. -/
def exSt3 : EditorState :=
  ⟨⟨"p3", "u3", "Topic", [slideA, slideB, slideC], defaultTheme,
    none, none, none⟩, 1⟩

lemma modifyAt_length {α : Type} (f : α → α) (i : Nat) (l : List α) :
    (modifyAt f i l).length = l.length := by
  induction l generalizing i with
  | nil => cases i <;> rfl
  | cons x xs ih =>
      cases i with
      | zero => rfl
      | succ n => simpa [modifyAt] using ih n

lemma swapAdj_length {α : Type} (l : List α) (i : Nat) :
    (swapAdj l i).length = l.length := by
  induction l generalizing i with
  | nil => cases i <;> rfl
  | cons x xs ih =>
      cases i with
      | zero => cases xs <;> rfl
      | succ n => simpa [swapAdj] using ih n

lemma filterIdxNeAux_spec {α : Type} (index : Nat) (l : List α) :
    ∀ n, filterIdxNeAux index n l =
      if index < n then l
      else l.take (index - n) ++ l.drop (index - n + 1) := by
  induction l with
  | nil => intro n; split <;> simp [filterIdxNeAux]
  | cons x xs ih =>
      intro n
      rcases Nat.lt_trichotomy index n with h | h | h
      · have hne : n ≠ index := by omega
        have h1 : index < n + 1 := by omega
        simp only [filterIdxNeAux, if_pos hne, ih (n + 1), if_pos h, if_pos h1]
      · subst h
        have hne : ¬ index ≠ index := by simp
        simp only [filterIdxNeAux, if_neg hne, ih (index + 1)]
        have h1 : index < index + 1 := by omega
        have h2 : ¬ index < index := by omega
        simp [if_pos h1, if_neg h2]
      · have hne : n ≠ index := by omega
        have h1 : ¬ index < n + 1 := by omega
        have h2 : ¬ index < n := by omega
        simp only [filterIdxNeAux, if_pos hne, ih (n + 1), if_neg h1, if_neg h2]
        have e1 : index - n = (index - (n + 1)) + 1 := by omega
        rw [e1]
        simp [List.take_succ_cons, List.drop_succ_cons]

lemma filterIdxNe_eq {α : Type} (index : Nat) (l : List α) :
    filterIdxNe index l = l.take index ++ l.drop (index + 1) := by
  unfold filterIdxNe
  rw [filterIdxNeAux_spec]
  simp

lemma filterIdxNe_length {α : Type} (index : Nat) (l : List α)
    (h : index < l.length) :
    (filterIdxNe index l).length = l.length - 1 := by
  rw [filterIdxNe_eq]
  simp only [List.length_append, List.length_take, List.length_drop]
  omega

lemma filterIdxNe_ne_nil {α : Type} (index : Nat) (l : List α)
    (h : 2 ≤ l.length) : filterIdxNe index l ≠ [] := by
  rw [filterIdxNe_eq]
  intro hc
  have := congrArg List.length hc
  simp only [List.length_append, List.length_take, List.length_drop,
    List.length_nil] at this
  omega

lemma modifyAt_getD {α : Type} [Inhabited α] (f : α → α) (i : Nat)
    (l : List α) (h : i < l.length) (d : α) :
    (modifyAt f i l).getD i d = f (l.getD i d) := by
  induction l generalizing i with
  | nil => simp at h
  | cons x xs ih =>
      cases i with
      | zero => rfl
      | succ n =>
          simp only [modifyAt, List.getD_cons_succ]
          exact ih n (by simpa using h)

lemma handleDeleteSlide_le_one (st : EditorState) (i : Nat)
    (h : st.presentation.slides.length ≤ 1) :
    handleDeleteSlide st i =
      ⟨st, some "Presentation must have at least one slide."⟩ := by
  unfold handleDeleteSlide
  rw [if_pos h]

lemma handleDeleteSlide_gt_one (st : EditorState) (i : Nat)
    (h : 1 < st.presentation.slides.length) :
    handleDeleteSlide st i =
      ⟨⟨{ st.presentation with
            slides := filterIdxNe i st.presentation.slides },
          if i = st.selectedSlideIndex then max 0 (i - 1)
          else if i < st.selectedSlideIndex then st.selectedSlideIndex - 1
          else st.selectedSlideIndex⟩, some "Slide deleted."⟩ := by
  unfold handleDeleteSlide
  rw [if_neg (by omega)]

/-- C1: every slide mutation (field update, move, delete, add) keeps the
slide sequence non-empty, and delete with exactly one slide leaves the
editor state unchanged. -/
theorem c1_mutations_preserve_nonempty (st : EditorState)
    (h : st.presentation.slides ≠ []) :
    (∀ u : SlideUpdate, (updateSlide st u).presentation.slides ≠ []) ∧
    (∀ d : Direction, (handleMoveSlide st d).presentation.slides ≠ []) ∧
    (∀ i : Nat, (handleDeleteSlide st i).state.presentation.slides ≠ []) ∧
    (∀ now : Nat, (handleAddSlide st now).presentation.slides ≠ []) ∧
    (st.presentation.slides.length = 1 →
      ∀ i : Nat, (handleDeleteSlide st i).state = st) := by
  have hlen : 0 < st.presentation.slides.length := List.length_pos.mpr h
  refine ⟨?_, ?_, ?_, ?_, ?_⟩
  · intro u
    rw [← List.length_pos]
    simpa [updateSlide, modifyAt_length] using hlen
  · intro d
    rw [← List.length_pos]
    cases d with
    | up =>
        by_cases hc : 0 < st.selectedSlideIndex
        · simp only [handleMoveSlide, if_pos hc]
          simpa [swapAdj_length] using hlen
        · simp only [handleMoveSlide, if_neg hc]
          exact hlen
    | down =>
        by_cases hc : st.selectedSlideIndex < st.presentation.slides.length - 1
        · simp only [handleMoveSlide, if_pos hc]
          simpa [swapAdj_length] using hlen
        · simp only [handleMoveSlide, if_neg hc]
          exact hlen
  · intro i
    by_cases h1 : st.presentation.slides.length ≤ 1
    · rw [handleDeleteSlide_le_one st i h1]
      exact h
    · rw [handleDeleteSlide_gt_one st i (by omega)]
      exact filterIdxNe_ne_nil i _ (by omega)
  · intro now
    simp [handleAddSlide]
  · intro h1 i
    rw [handleDeleteSlide_le_one st i (by omega)]

/-- Witness for C1 at the concrete one-slide state. -/
theorem c1_mutations_preserve_nonempty_witness :
    (∀ u : SlideUpdate, (updateSlide exSt1 u).presentation.slides ≠ []) ∧
    (∀ d : Direction, (handleMoveSlide exSt1 d).presentation.slides ≠ []) ∧
    (∀ i : Nat, (handleDeleteSlide exSt1 i).state.presentation.slides ≠ []) ∧
    (∀ now : Nat, (handleAddSlide exSt1 now).presentation.slides ≠ []) ∧
    (exSt1.presentation.slides.length = 1 →
      ∀ i : Nat, (handleDeleteSlide exSt1 i).state = exSt1) :=
  c1_mutations_preserve_nonempty exSt1 (by decide)

/-- C5: delete is a notify-only no-op on a one-slide presentation; with more
slides and a valid index it removes exactly the slide at that index
(preserving the order of the rest) and remaps the selection to
`max 0 (i-1)` when the deleted index was selected, to `selection - 1` when a
slide before it was deleted, and leaves it unchanged otherwise. -/
theorem c5_delete_semantics (st : EditorState) (i : Nat)
    (hi : i < st.presentation.slides.length) :
    handleDeleteSlide st i =
      (if st.presentation.slides.length = 1 then
        ⟨st, some "Presentation must have at least one slide."⟩
      else
        ⟨⟨{ st.presentation with
              slides := st.presentation.slides.take i ++
                st.presentation.slides.drop (i + 1) },
            if i = st.selectedSlideIndex then max 0 (i - 1)
            else if i < st.selectedSlideIndex then st.selectedSlideIndex - 1
            else st.selectedSlideIndex⟩, some "Slide deleted."⟩) ∧
    (handleDeleteSlide st i).state.presentation.slides.length =
      (if st.presentation.slides.length = 1 then st.presentation.slides.length
       else st.presentation.slides.length - 1) := by
  by_cases h1 : st.presentation.slides.length = 1
  · rw [handleDeleteSlide_le_one st i (by omega), if_pos h1, if_pos h1]
    exact ⟨rfl, rfl⟩
  · have h2 : 1 < st.presentation.slides.length := by omega
    rw [handleDeleteSlide_gt_one st i h2, if_neg h1, if_neg h1,
      filterIdxNe_eq]
    refine ⟨rfl, ?_⟩
    simp only [List.length_append, List.length_take, List.length_drop]
    omega

/-- Witness for C5: deleting the selected middle slide of three keeps two
slides and moves the selection to the previous index. -/
theorem c5_delete_semantics_witness :
    (handleDeleteSlide exSt3 1).state.presentation.slides.length = 2 ∧
      (handleDeleteSlide exSt3 1).state.selectedSlideIndex = 0 := by
  have h := c5_delete_semantics exSt3 1 (by decide)
  constructor
  · rw [h.2]
    decide
  · rw [h.1]
    decide

/-- C8: a successful refinement replaces the selected slide's content with
the response split on newlines, blank-after-trim lines dropped and a leading
hyphen-space stripped where present; the spec's example parses as stated. -/
theorem c8_refine_parsing (st : EditorState) (response : String)
    (h : st.selectedSlideIndex < st.presentation.slides.length) :
    ((handleAiContentRefineSuccess st response).presentation.slides.getD
        st.selectedSlideIndex default).content =
      parseRefineResponse response ∧
    parseRefineResponse "- Point one\n\nPoint two\n- Point three" =
      ["Point one", "Point two", "Point three"] := by
  constructor
  · unfold handleAiContentRefineSuccess updateSlide
    rw [modifyAt_getD _ _ _ h]
    rfl
  · decide

/-- Witness for C8 at the three-slide state and a concrete response. -/
theorem c8_refine_parsing_witness :
    ((handleAiContentRefineSuccess exSt3
        "- One\n\nTwo\n- Three").presentation.slides.getD
      exSt3.selectedSlideIndex default).content = ["One", "Two", "Three"] := by
  have h := (c8_refine_parsing exSt3 "- One\n\nTwo\n- Three" (by decide)).1
  rw [h]
  decide

/-- Editor state exercising the refinement failure path: the selected
slide's content has a line that itself starts with a hyphen-space. -/
def c9ExState : EditorState :=
  ⟨⟨"p9", "u9", "T9",
    [{ id := "s1", title := "T", content := ["- Point"],
       backgroundImage := "#FFFFFF", backgroundImageSearchQuery := "q" }],
    defaultTheme, none, none, none⟩, 0⟩

/-- C9: when the backend call fails, the service returns the joined current
content instead of an error, so the editor re-parses it — stripping the
slide's own leading hyphen-space and changing the content — and shows the
success toast; the failure notice branch is unreachable. -/
theorem c9_backend_failure_divergence :
    ((handleAiContentRefineBackendFail c9ExState).1.presentation.slides.getD 0
        default).content = ["Point"] ∧
    (c9ExState.presentation.slides.getD 0 default).content = ["- Point"] ∧
    ((handleAiContentRefineBackendFail c9ExState).1.presentation.slides.getD 0
        default).content ≠
      (c9ExState.presentation.slides.getD 0 default).content ∧
    (handleAiContentRefineBackendFail c9ExState).2 =
      some "Content refined!" := by
  decide

/-- Editor state whose only slide already carries the id that the Add Slide
button would generate at timestamp 0. -/
def c10ExState : EditorState :=
  ⟨⟨"p10", "u10", "T10",
    [{ id := "slide-0", title := "X", content := ["x"],
       backgroundImage := "#FFFFFF", backgroundImageSearchQuery := "" }],
    defaultTheme, none, none, none⟩, 0⟩

/-- C10 counterexample: the added slide's search query is `"abstract"`, not
unset, and its id can collide with an existing slide's id. -/
theorem c10_counterexample :
    ((handleAddSlide c10ExState 0).presentation.slides.getD 1
        default).backgroundImageSearchQuery = "abstract" ∧
    ((handleAddSlide c10ExState 0).presentation.slides.getD 1
        default).backgroundImageSearchQuery ≠ "" ∧
    ((handleAddSlide c10ExState 0).presentation.slides.getD 1 default).id =
      (c10ExState.presentation.slides.getD 0 default).id := by
  decide

/-- C10 as amended: add appends exactly one slide at the end — id derived
from the timestamp (no uniqueness guarantee), placeholder title and content,
white background, search query `"abstract"`, animation `"none"` — leaves the
existing slides and the rest of the presentation unchanged, and moves the
selection to the previous length. -/
theorem c10_add_slide (st : EditorState) (now : Nat) :
    (handleAddSlide st now).presentation.slides =
      st.presentation.slides ++
        [{ id := "slide-" ++ toString now, title := "New Slide",
           content := ["Click to edit content"],
           backgroundImage := "#FFFFFF",
           backgroundImageSearchQuery := "abstract",
           animation := some "none", titleStyle := none,
           contentStyle := none }] ∧
    (handleAddSlide st now).selectedSlideIndex =
      st.presentation.slides.length ∧
    (handleAddSlide st now).presentation.id = st.presentation.id ∧
    (handleAddSlide st now).presentation.topic = st.presentation.topic ∧
    (handleAddSlide st now).presentation.theme = st.presentation.theme :=
  ⟨rfl, rfl, rfl, rfl, rfl⟩

/-- JS `replace('#', '')` with a string pattern: remove only the first
occurrence of the hash. -/
def removeFirstHash : List Char → List Char
  | [] => []
  | c :: cs => if c == '#' then cs else c :: removeFirstHash cs

/-- Character class `[0-9a-fA-F]` of the export regex. -/
def isHexDigit (c : Char) : Bool :=
  ('0' ≤ c && c ≤ '9') || ('a' ≤ c && c ≤ 'f') || ('A' ≤ c && c ≤ 'F')

/-- Try to read six hex digits at the front of the list. -/
def takeHex6 : List Char → Option (List Char)
  | c1 :: c2 :: c3 :: c4 :: c5 :: c6 :: _ =>
      if isHexDigit c1 && isHexDigit c2 && isHexDigit c3 && isHexDigit c4 &&
          isHexDigit c5 && isHexDigit c6 then
        some [c1, c2, c3, c4, c5, c6]
      else none
  | _ => none

/-- Leftmost match of `/#[0-9a-fA-F]{6}/`, returned without the hash (the
source strips it with `match[0].replace('#','')`). -/
def firstHexMatch : List Char → Option (List Char)
  | [] => none
  | c :: cs =>
      if c == '#' then
        match takeHex6 cs with
        | some hex => some hex
        | none => firstHexMatch cs
      else firstHexMatch cs

/-- The background value the export branch of `handleExport` assigns to an
output slide: an image path, a flat colour, or nothing at all. -/
inductive ExportBg
  | path (p : String)
  | color (c : String)
  | unset
  deriving DecidableEq, Repr

/-- The export transform's background branch, in source order: `data:` or
`http` prefix → image path; `#` prefix → flat colour; `linear-gradient`
prefix → first 6-hex-digit literal or white; otherwise no background. -/
def exportBackground (backgroundImage : String) : ExportBg :=
  if strStartsWith backgroundImage "data:" ||
      strStartsWith backgroundImage "http" then
    .path backgroundImage
  else if strStartsWith backgroundImage "#" then
    .color (String.mk (removeFirstHash backgroundImage.data))
  else if strStartsWith backgroundImage "linear-gradient" then
    match firstHexMatch backgroundImage.data with
    | some hex => .color (String.mk hex)
    | none => .color "FFFFFF"
  else .unset

/-- The four background classes of the spec, plus the class of strings the
export transform assigns no background to. -/
inductive BgClass
  | color
  | gradient
  | video
  | image
  | unset
  deriving DecidableEq, Repr

/-- Classification used by the live preview (`SlideBackground`): the
`isColor` test merges hash colours and gradients into the styled `div`
branch (CSS then renders a hash as a colour and a gradient as a gradient),
then the `isVideo` test, then the image fallback. -/
def previewClass (s : String) : BgClass :=
  if strStartsWith s "#" || strStartsWith s "linear-gradient" then
    (if strStartsWith s "#" then .color else .gradient)
  else if strStartsWith s "data:video" || strEndsWith s ".mp4" ||
      strEndsWith s ".webm" then
    .video
  else .image

/-- Classification implicit in the export branch order: `data:`/`http`
first (image), then hash colour, then gradient, then no background. -/
def exportClass (s : String) : BgClass :=
  if strStartsWith s "data:" || strStartsWith s "http" then .image
  else if strStartsWith s "#" then .color
  else if strStartsWith s "linear-gradient" then .gradient
  else .unset

lemma strStartsWith_head (s p : String) (h : strStartsWith s p = true) :
    p.data = [] ∨ s.data.head? = p.data.head? := by
  unfold strStartsWith at h
  cases hp : p.data with
  | nil => exact Or.inl rfl
  | cons c cs =>
      rw [hp] at h
      cases hs : s.data with
      | nil => rw [hs] at h; simp [matchesFront] at h
      | cons d ds =>
          rw [hs] at h
          simp only [matchesFront, Bool.and_eq_true, beq_iff_eq] at h
          exact Or.inr (by simp [hs, hp, h.1])

lemma strStartsWith_head_ne (s p q : String) (c d : Char)
    (cp cq : List Char) (hp : p.data = c :: cp) (hq : q.data = d :: cq)
    (hcd : c ≠ d) (h : strStartsWith s p = true) :
    strStartsWith s q = false := by
  by_contra hc
  rw [Bool.not_eq_false] at hc
  have h1 := strStartsWith_head s p h
  have h2 := strStartsWith_head s q hc
  rw [hp] at h1
  rw [hq] at h2
  rcases h1 with h1 | h1
  · simp at h1
  · rcases h2 with h2 | h2
    · simp at h2
    · rw [h1] at h2
      simp only [List.head?_cons, Option.some.injEq] at h2
      exact hcd h2

/-- C6 counterexample: the spec's own video sample is classified video by
the preview but hits the export transform's image branch. -/
theorem c6_counterexample :
    previewClass "data:video/mp4;base64,AAAA" = BgClass.video ∧
    exportClass "data:video/mp4;base64,AAAA" = BgClass.image ∧
    previewClass "data:video/mp4;base64,AAAA" ≠
      exportClass "data:video/mp4;base64,AAAA" := by
  decide

/-- C6 as amended: both classifications are total functions and agree on
hash colours, gradients, and non-video `data:`/`http` references; they
diverge on video references reached through `data:`/`http` (preview video,
export image) and on strings with none of the recognised prefixes (preview
renders video or image, export assigns no background). -/
theorem c6_classification (s : String) :
    (strStartsWith s "#" = true →
      previewClass s = BgClass.color ∧ exportClass s = BgClass.color) ∧
    (strStartsWith s "linear-gradient" = true →
      previewClass s = BgClass.gradient ∧
        exportClass s = BgClass.gradient) ∧
    ((strStartsWith s "data:" = true ∨ strStartsWith s "http" = true) →
      (strStartsWith s "data:video" || strEndsWith s ".mp4" ||
          strEndsWith s ".webm") = false →
      previewClass s = BgClass.image ∧ exportClass s = BgClass.image) ∧
    ((strStartsWith s "data:video" || strEndsWith s ".mp4" ||
        strEndsWith s ".webm") = true →
      (strStartsWith s "data:" = true ∨ strStartsWith s "http" = true) →
      previewClass s = BgClass.video ∧ exportClass s = BgClass.image) ∧
    (strStartsWith s "#" = false →
      strStartsWith s "linear-gradient" = false →
      strStartsWith s "data:" = false → strStartsWith s "http" = false →
      exportClass s = BgClass.unset ∧
        (previewClass s = BgClass.video ∨ previewClass s = BgClass.image)) := by
  refine ⟨?_, ?_, ?_, ?_, ?_⟩
  · intro hx
    have hd : strStartsWith s "data:" = false :=
      strStartsWith_head_ne s "#" "data:" '#' 'd' _ _ rfl rfl (by decide) hx
    have hh : strStartsWith s "http" = false :=
      strStartsWith_head_ne s "#" "http" '#' 'h' _ _ rfl rfl (by decide) hx
    constructor
    · simp [previewClass, hx]
    · simp [exportClass, hd, hh, hx]
  · intro hg
    have hx : strStartsWith s "#" = false :=
      strStartsWith_head_ne s "linear-gradient" "#" 'l' '#' _ _ rfl rfl
        (by decide) hg
    have hd : strStartsWith s "data:" = false :=
      strStartsWith_head_ne s "linear-gradient" "data:" 'l' 'd' _ _ rfl rfl
        (by decide) hg
    have hh : strStartsWith s "http" = false :=
      strStartsWith_head_ne s "linear-gradient" "http" 'l' 'h' _ _ rfl rfl
        (by decide) hg
    constructor
    · simp [previewClass, hx, hg]
    · simp [exportClass, hd, hh, hx, hg]
  · intro hdh hv
    rcases hdh with hd | hh
    · have hx : strStartsWith s "#" = false :=
        strStartsWith_head_ne s "data:" "#" 'd' '#' _ _ rfl rfl (by decide) hd
      have hg : strStartsWith s "linear-gradient" = false :=
        strStartsWith_head_ne s "data:" "linear-gradient" 'd' 'l' _ _ rfl rfl
          (by decide) hd
      constructor
      · simp only [previewClass, hx, hg, hv]
        simp
      · simp [exportClass, hd]
    · have hx : strStartsWith s "#" = false :=
        strStartsWith_head_ne s "http" "#" 'h' '#' _ _ rfl rfl (by decide) hh
      have hg : strStartsWith s "linear-gradient" = false :=
        strStartsWith_head_ne s "http" "linear-gradient" 'h' 'l' _ _ rfl rfl
          (by decide) hh
      constructor
      · simp only [previewClass, hx, hg, hv]
        simp
      · simp [exportClass, hh]
  · intro hv hdh
    have hx : strStartsWith s "#" = false := by
      rcases hdh with hd | hh
      · exact strStartsWith_head_ne s "data:" "#" 'd' '#' _ _ rfl rfl
          (by decide) hd
      · exact strStartsWith_head_ne s "http" "#" 'h' '#' _ _ rfl rfl
          (by decide) hh
    have hg : strStartsWith s "linear-gradient" = false := by
      rcases hdh with hd | hh
      · exact strStartsWith_head_ne s "data:" "linear-gradient" 'd' 'l' _ _
          rfl rfl (by decide) hd
      · exact strStartsWith_head_ne s "http" "linear-gradient" 'h' 'l' _ _
          rfl rfl (by decide) hh
    constructor
    · simp [previewClass, hx, hg, hv]
    · rcases hdh with hd | hh
      · simp [exportClass, hd]
      · simp [exportClass, hh]
  · intro hx hg hd hh
    constructor
    · simp [exportClass, hx, hg, hd, hh]
    · by_cases hv : (strStartsWith s "data:video" || strEndsWith s ".mp4" ||
          strEndsWith s ".webm") = true
      · exact Or.inl (by simp [previewClass, hx, hg, hv])
      · exact Or.inr (by simp [previewClass, hx, hg,
          Bool.not_eq_true _ ▸ hv])

/-- Witness for C6 at the spec's hash-colour sample. -/
theorem c6_classification_witness :
    previewClass "#112233" = BgClass.color ∧
      exportClass "#112233" = BgClass.color :=
  (c6_classification "#112233").1 (by decide)

/-- C7: for every gradient-prefixed background the export transform emits a
flat colour — the first 6-hex-digit literal of the expression with the hash
stripped, or white when the expression has none. -/
theorem c7_export_gradient_fallback (s : String)
    (h : strStartsWith s "linear-gradient" = true) :
    exportBackground s =
      ExportBg.color (match firstHexMatch s.data with
        | some hex => String.mk hex
        | none => "FFFFFF") := by
  have hx : strStartsWith s "#" = false :=
    strStartsWith_head_ne s "linear-gradient" "#" 'l' '#' _ _ rfl rfl
      (by decide) h
  have hd : strStartsWith s "data:" = false :=
    strStartsWith_head_ne s "linear-gradient" "data:" 'l' 'd' _ _ rfl rfl
      (by decide) h
  have hh : strStartsWith s "http" = false :=
    strStartsWith_head_ne s "linear-gradient" "http" 'l' 'h' _ _ rfl rfl
      (by decide) h
  simp only [exportBackground, hx, hd, hh, h, Bool.or_self, if_neg,
    Bool.false_eq_true, ite_false, ite_true]
  cases firstHexMatch s.data <;> rfl

/-- Witness for C7 at the spec's gradient sample and at a gradient with no
6-hex-digit literal. -/
theorem c7_export_gradient_fallback_witness :
    exportBackground "linear-gradient(135deg, #667eea 0%, #764ba2 100%)" =
        ExportBg.color "667eea" ∧
      exportBackground "linear-gradient(to right, red, blue)" =
        ExportBg.color "FFFFFF" := by
  constructor
  · exact (c7_export_gradient_fallback
      "linear-gradient(135deg, #667eea 0%, #764ba2 100%)"
      (by decide)).trans (by decide)
  · exact (c7_export_gradient_fallback
      "linear-gradient(to right, red, blue)" (by decide)).trans (by decide)

end SlideForge
